import Mathlib

/-!
Verification of the claude-code-api gateway core (Go sources) via a shallow
embedding in Lean.  Decoded JSON values (Go `any` after `encoding/json`
unmarshalling) are modelled by `JVal`; the event model, the two text
extraction rules, the stream converter, the two response assembly modes,
the stdout line parser and the session manager are translated from the Go
source, and the frozen specification claims are settled as theorems below.
-/

set_option maxHeartbeats 1000000

/-- A decoded JSON value, as Go's `encoding/json` produces into `any`:
`nil`, `bool`, `float64` (the numeric payload is never inspected by any of
the embedded operations, so an `Int` carrier is used), `string`,
`[]interface\x7b\x7d`, or `map[string]interface\x7b\x7d` (represented as an
association list; JSON decoding produces no duplicate keys). -/
inductive JVal where
  | jnull
  | jbool (b : Bool)
  | jnum (n : Int)
  | jstr (s : String)
  | jarr (items : List JVal)
  | jobj (fields : List (String × JVal))

/-- Lookup of a key in a decoded JSON object; on any non-object value the
Go type assertion `item.(map[string]interface\x7b\x7d)` fails, modelled as
`none`. -/
def jlookup (k : String) : JVal → Option JVal
  | .jobj l => l.lookup k
  | _ => none

/-- The block-scanning loop of `streaming.ExtractTextContent` (Go
`for _, item := range v`): returns the `text` field of the first block that
is a JSON object whose `type` field equals the string `"text"` and whose
`text` field is a string; the loop continues past every other block. -/
def extractFromBlocks : List JVal → String
  | [] => ""
  | item :: rest =>
    match item with
    | .jobj m =>
      match m.lookup "type" with
      | some (.jstr ty) =>
        if ty = "text" then
          match m.lookup "text" with
          | some (.jstr t) => t
          | _ => extractFromBlocks rest
        else extractFromBlocks rest
      | _ => extractFromBlocks rest
    | _ => extractFromBlocks rest

/-- Go `streaming.ExtractTextContent` (single-event extraction rule): a
plain string is returned as is; a block sequence is scanned for the first
`"text"`-typed block with a string `text` field; every other shape yields
the empty string. -/
def ExtractTextContent : JVal → String
  | .jstr s => s
  | .jarr items => extractFromBlocks items
  | _ => ""

/-- The block loop of `models.ChatMessage.GetTextContent`: per block that
is a JSON object, if a `text` field exists take it when it is a string
(a present non-string `text` field contributes nothing and `content` is
not consulted), else if a `content` field exists take it when it is a
string. -/
def collectBlockParts : List JVal → List String
  | [] => []
  | item :: rest =>
    match item with
    | .jobj m =>
      match m.lookup "text" with
      | some (.jstr s) => s :: collectBlockParts rest
      | some _ => collectBlockParts rest
      | none =>
        match m.lookup "content" with
        | some (.jstr s) => s :: collectBlockParts rest
        | _ => collectBlockParts rest
    | _ => collectBlockParts rest

/-- Go `models.ChatMessage.GetTextContent` applied to the receiver's
`Content` value (whole-message extraction rule): a plain string is
returned as is; for a block sequence the collected fragments are joined
with `"\n"` (Go `strings.Join(parts, "\n")`); every other shape yields the
empty string. -/
def GetTextContent : JVal → String
  | .jstr s => s
  | .jarr items => String.intercalate "\n" (collectBlockParts items)
  | _ => ""

/-- Spec-worded single-event rule, for comparison with the code's
`ExtractTextContent`: scan the blocks in order and return the first match,
where a block matches when it declares type `"text"` and carries a string
`text` field; if none match, return empty. -/
def specSingleEventRule : JVal → String
  | .jstr s => s
  | .jarr items =>
    (items.findSome? fun item =>
      match item with
      | .jobj m =>
        match m.lookup "type", m.lookup "text" with
        | some (.jstr "text"), some (.jstr t) => some t
        | _, _ => none
      | _ => none).getD ""
  | _ => ""

/-- Spec-worded per-block fragment of the whole-message rule: the `text`
field if present (contributing only when a string), else the `content`
field if present and a string. -/
def specBlockFragment : JVal → Option String
  | .jobj m =>
    match m.lookup "text" with
    | some (.jstr s) => some s
    | some _ => none
    | none =>
      match m.lookup "content" with
      | some (.jstr s) => some s
      | _ => none
  | _ => none

/-- Spec-worded whole-message rule, for comparison with the code's
`GetTextContent`: collect every block's fragment and join the collected
fragments with newline separators. -/
def specWholeMessageRule : JVal → String
  | .jstr s => s
  | .jarr items => String.intercalate "\n" (items.filterMap specBlockFragment)
  | _ => ""

theorem extractFromBlocks_eq_findSome (items : List JVal) :
    extractFromBlocks items =
      (items.findSome? fun item =>
        match item with
        | .jobj m =>
          match m.lookup "type", m.lookup "text" with
          | some (.jstr "text"), some (.jstr t) => some t
          | _, _ => none
        | _ => none).getD "" := by
  induction items with
  | nil => rfl
  | cons item rest ih =>
    cases item with
    | jobj m =>
      simp only [extractFromBlocks, List.findSome?]
      rcases hty : m.lookup "type" with _ | ty
      · simpa [hty] using ih
      · cases ty with
        | jstr tys =>
          by_cases hys : tys = "text"
          · subst hys
            rcases htx : m.lookup "text" with _ | tx
            · simpa [hty, htx] using ih
            · cases tx <;> simp [hty, htx] <;> simpa [hty, htx] using ih
          · simpa [hty, hys] using ih
        | jnull => simpa [hty] using ih
        | jbool b => simpa [hty] using ih
        | jnum n => simpa [hty] using ih
        | jarr l => simpa [hty] using ih
        | jobj l => simpa [hty] using ih
    | jnull => simpa [extractFromBlocks, List.findSome?] using ih
    | jbool b => simpa [extractFromBlocks, List.findSome?] using ih
    | jnum n => simpa [extractFromBlocks, List.findSome?] using ih
    | jstr s => simpa [extractFromBlocks, List.findSome?] using ih
    | jarr l => simpa [extractFromBlocks, List.findSome?] using ih

theorem collectBlockParts_eq_filterMap (items : List JVal) :
    collectBlockParts items = items.filterMap specBlockFragment := by
  induction items with
  | nil => rfl
  | cons item rest ih =>
    cases item with
    | jobj m =>
      simp only [collectBlockParts, List.filterMap, specBlockFragment]
      rcases htx : m.lookup "text" with _ | tx
      · rcases hc : m.lookup "content" with _ | c
        · simpa using ih
        · cases c <;> simp [ih]
      · cases tx <;> simp [ih]
    | jnull => simpa [collectBlockParts, List.filterMap, specBlockFragment] using ih
    | jbool b => simpa [collectBlockParts, List.filterMap, specBlockFragment] using ih
    | jnum n => simpa [collectBlockParts, List.filterMap, specBlockFragment] using ih
    | jstr s => simpa [collectBlockParts, List.filterMap, specBlockFragment] using ih
    | jarr l => simpa [collectBlockParts, List.filterMap, specBlockFragment] using ih

/-- Go `models.ClaudeMessageContent`: the `message` object of an
assistant event (`role` plus polymorphic `content`). -/
structure ClaudeMessageContent where
  Role : String := ""
  Content : JVal := .jnull

/-- Go `models.ClaudeMessage`, one decoded line of Claude CLI JSONL
output.  Field `Ty` models Go's `Type` (a reserved word in Lean).  The
purely diagnostic fields `CWD`, `Tools`, `Usage`, `CostUSD` and
`DurationMs` are never read by any embedded operation and are omitted.
Defaults are the Go zero values. -/
structure ClaudeMessage where
  Ty : String := ""
  Subtype : String := ""
  Message : Option ClaudeMessageContent := none
  SessionID : String := ""
  Model : String := ""
  Result : String := ""
  Error : String := ""

/-- Go `models.ChatMessage` as it appears in a non-streamed response
choice (role plus content; the handler always stores a plain string
content). -/
structure ChatMessage where
  Role : String := ""
  Content : JVal := .jnull
  Name : String := ""

/-- Go `models.ChatCompletionChoice`. -/
structure ChatCompletionChoice where
  index : Nat
  message : ChatMessage
  finishReason : String

/-- Go `models.ChatCompletionUsage`. -/
structure ChatCompletionUsage where
  promptTokens : Nat
  completionTokens : Nat
  totalTokens : Nat

/-- Go `models.ChatCompletionResponse`. -/
structure ChatCompletionResponse where
  id : String
  object : String
  created : Int
  model : String
  choices : List ChatCompletionChoice
  usage : ChatCompletionUsage
  sessionID : String
  projectID : String

/-- Go `models.ChatCompletionChunkDelta` (both fields `omitempty`). -/
structure ChatCompletionChunkDelta where
  role : String := ""
  content : String := ""

/-- Go `models.ChatCompletionChunkChoice`. -/
structure ChatCompletionChunkChoice where
  index : Nat
  delta : ChatCompletionChunkDelta
  finishReason : Option String

/-- Go `models.ChatCompletionChunk`: note that the chunk shape carries no
session-id field of any kind. -/
structure ChatCompletionChunk where
  id : String
  object : String
  created : Int
  model : String
  choices : List ChatCompletionChunkChoice

/-- Go `streaming.Converter`: the per-response conversion state, fixed at
construction. -/
structure Converter where
  Model : String
  SessionID : String
  CompletionID : String
  Created : Int

/-- Go `streaming.NewConverter`: the nondeterministic inputs (the 29-char
UUID slice and `time.Now().Unix()`) are passed as parameters. -/
def NewConverter (model sessionID uuidPart : String) (now : Int) : Converter :=
  { Model := model
    SessionID := sessionID
    CompletionID := "chatcmpl-" ++ uuidPart
    Created := now }

/-- Go `Converter.CreateInitialChunk`. -/
def CreateInitialChunk (c : Converter) : ChatCompletionChunk :=
  { id := c.CompletionID
    object := "chat.completion.chunk"
    created := c.Created
    model := c.Model
    choices := [{ index := 0
                  delta := { role := "assistant", content := "" }
                  finishReason := none }] }

/-- Go `Converter.CreateContentChunk`. -/
def CreateContentChunk (c : Converter) (content : String) : ChatCompletionChunk :=
  { id := c.CompletionID
    object := "chat.completion.chunk"
    created := c.Created
    model := c.Model
    choices := [{ index := 0
                  delta := { content := content }
                  finishReason := none }] }

/-- Go `Converter.CreateFinalChunk`. -/
def CreateFinalChunk (c : Converter) : ChatCompletionChunk :=
  { id := c.CompletionID
    object := "chat.completion.chunk"
    created := c.Created
    model := c.Model
    choices := [{ index := 0
                  delta := {}
                  finishReason := some "stop" }] }

/-- JSON serialization of a chunk delta per the Go struct tags
(`role,omitempty` and `content,omitempty`: empty strings omit the key). -/
def deltaToJson (d : ChatCompletionChunkDelta) : JVal :=
  .jobj ((if d.role = "" then [] else [("role", JVal.jstr d.role)]) ++
         (if d.content = "" then [] else [("content", JVal.jstr d.content)]))

/-- JSON serialization of a chunk choice per the Go struct tags
(`finish_reason` has no `omitempty`, so a nil pointer serializes as
null). -/
def choiceToJson (ch : ChatCompletionChunkChoice) : JVal :=
  .jobj [("index", .jnum (ch.index : Int)),
         ("delta", deltaToJson ch.delta),
         ("finish_reason",
          match ch.finishReason with
          | some s => .jstr s
          | none => .jnull)]

/-- JSON serialization of a streaming chunk, as `json.Marshal` inside
`SSEFormatter.FormatEvent` produces it from the tagged
`ChatCompletionChunk` struct (keys in declaration order). -/
def chunkToJson (ck : ChatCompletionChunk) : JVal :=
  .jobj [("id", .jstr ck.id),
         ("object", .jstr ck.object),
         ("created", .jnum ck.created),
         ("model", .jstr ck.model),
         ("choices", .jarr (ck.choices.map choiceToJson))]

/-- One frame written to the SSE response body: a `data:` frame carrying a
chunk (`SSEFormatter.FormatEvent`), or the literal done sentinel
(`SSEFormatter.FormatDone`). -/
inductive Frame where
  | chunk (c : ChatCompletionChunk)
  | done

/-- The per-event body of the `for msg := range proc.Output` loop of
`ChatHandler.handleStreamingResponse`: an assistant event with a non-nil
message and non-empty single-event extraction emits one content chunk,
every other event emits nothing. -/
def streamHere (c : Converter) (m : ClaudeMessage) : List Frame :=
  if m.Ty = "assistant" then
    match m.Message with
    | some mc =>
      let content := ExtractTextContent mc.Content
      if content ≠ "" then [Frame.chunk (CreateContentChunk c content)] else []
    | none => []
  else []

/-- The event loop of `ChatHandler.handleStreamingResponse`
(`for msg := range proc.Output`): per event, an assistant event with a
non-nil message and non-empty single-event extraction emits one content
chunk; a result event breaks out of the loop, leaving the rest of the
queue unread.  Returns the emitted frames and the unread suffix. -/
def streamLoop (c : Converter) : List ClaudeMessage → List Frame × List ClaudeMessage
  | [] => ([], [])
  | m :: rest =>
    if m.Ty = "result" then (streamHere c m, rest)
    else
      let r := streamLoop c rest
      (streamHere c m ++ r.1, r.2)

/-- Go `ChatHandler.handleStreamingResponse`: writes the initial chunk,
runs the event loop, then writes the final chunk and the done sentinel.
The handle's event queue is passed as the list of events it will yield;
the unread suffix is returned alongside the emitted frames. -/
def handleStreamingResponse (c : Converter) (events : List ClaudeMessage) :
    List Frame × List ClaudeMessage :=
  let r := streamLoop c events
  (Frame.chunk (CreateInitialChunk c) :: (r.1 ++ [Frame.chunk (CreateFinalChunk c), Frame.done]),
   r.2)

/-- The per-event body of the collection loop of
`ChatHandler.handleNonStreamingResponse`: an assistant event with a
non-nil message and a non-empty single-event extraction contributes that
extraction to `contentParts`, every other event contributes nothing. -/
def collectHere (m : ClaudeMessage) : List String :=
  if m.Ty = "assistant" then
    match m.Message with
    | some mc =>
      let content := ExtractTextContent mc.Content
      if content ≠ "" then [content] else []
    | none => []
  else []

/-- The collection loop of `ChatHandler.handleNonStreamingResponse`: per
event, an assistant event with a non-nil message and a non-empty
single-event extraction appends that extraction to `contentParts`; a
result event breaks out of the loop. -/
def collectParts : List ClaudeMessage → List String
  | [] => []
  | m :: rest =>
    if m.Ty = "result" then collectHere m
    else collectHere m ++ collectParts rest

/-- The fixed fallback text substituted when the joined buffered text is
empty (chat.go line 170). -/
def fallbackText : String := "Hello! I\x27m Claude, ready to help."

/-- Go `strings.Fields`: the whitespace-separated tokens of a string. -/
def stringsFields (s : String) : List String :=
  (s.split fun c => c.isWhitespace).filter fun t => t ≠ ""

/-- Go `ChatHandler.handleNonStreamingResponse`: drains the queue until a
result event or closure collecting single-event extractions, joins them
with newlines, substitutes the fallback when empty, and synthesizes the
usage counters (prompt 10, completion the whitespace token count, total
their sum).  The nondeterministic completion id and creation time are
parameters. -/
def handleNonStreamingResponse (events : List ClaudeMessage)
    (model sessionID projectID completionID : String) (now : Int) :
    ChatCompletionResponse :=
  let completeContent0 := String.intercalate "\n" (collectParts events)
  let completeContent := if completeContent0 = "" then fallbackText else completeContent0
  let wordCount := (stringsFields completeContent).length
  { id := completionID
    object := "chat.completion"
    created := now
    model := model
    choices := [{ index := 0
                  message := { Role := "assistant", Content := .jstr completeContent }
                  finishReason := "stop" }]
    usage := { promptTokens := 10
               completionTokens := wordCount
               totalTokens := 10 + wordCount }
    sessionID := sessionID
    projectID := projectID }

/-- One operation on the handle's event queue (`p.Output`): a send of a
decoded event, or the single deferred `close`. -/
inductive QOp where
  | send (m : ClaudeMessage)
  | close

/-- The session-id adoption step of the stdout goroutine of
`Process.Start`: the handle's session id is replaced by the decoded
event's session id exactly when the handle's is still empty and the
event's is non-empty. -/
def adoptSessionID (sid : String) (m : ClaudeMessage) : String :=
  if sid = "" ∧ m.SessionID ≠ "" then m.SessionID else sid

/-- The stdout-scanning goroutine of `Process.Start`, over the sequence of
lines the scanner yields before end-of-file: a blank line is skipped; a
line that fails to decode (`json.Unmarshal`, abstracted as the `decode`
parameter) is logged and skipped; a decoded event first drives session-id
adoption and is then sent to the queue; at end-of-file the deferred
`close(p.Output)` runs.  Returns the final session id and the queue
operation trace. -/
def parseStdoutLoop (decode : String → Option ClaudeMessage) (sid : String) :
    List String → String × List QOp
  | [] => (sid, [QOp.close])
  | l :: ls =>
    if l = "" then parseStdoutLoop decode sid ls
    else
      match decode l with
      | none => parseStdoutLoop decode sid ls
      | some m =>
        let r := parseStdoutLoop decode (adoptSessionID sid m) ls
        (r.1, QOp.send m :: r.2)

/-- Go `claude.Process`: the subprocess handle.  The `cmd` pointer and the
queue itself are not part of the value model (the queue's behaviour is the
`QOp` trace of `parseStdoutLoop`). -/
structure Process where
  SessionID : String := ""
  ProjectPath : String := ""
  IsRunning : Bool := false

/-- Go `claude.Manager`: configuration ceiling, the `processes` registry
map (as an association list) and the memoized version probe
(`version` plus the `sync.Once` flag `versionDone`). -/
structure Manager where
  maxConcurrentSessions : Nat
  processes : List (String × Process) := []
  versionDone : Bool := false
  version : String := ""

/-- Go `claude.NewManager`: empty registry, version probe not yet run. -/
def NewManager (maxConcurrentSessions : Nat) : Manager :=
  { maxConcurrentSessions := maxConcurrentSessions }

/-- Go `Manager.ActiveSessionCount`. -/
def Manager.ActiveSessionCount (m : Manager) : Nat :=
  m.processes.length

/-- The outcome of `Manager.CreateSession`: the capacity rejection, a
`Process.Start` failure, or the started handle. -/
inductive CreateSessionResult where
  | capacityError (max : Nat)
  | startError
  | ok (p : Process)

/-- The full effect of one `Manager.CreateSession` call: its returned
result, the manager state afterwards, and whether `Process.Start` was
invoked (i.e. whether a subprocess launch was attempted). -/
structure CreateSessionOut where
  result : CreateSessionResult
  manager : Manager
  startAttempted : Bool

/-- Go `Manager.CreateSession`: under the lock, rejects with a capacity
error when the registry size is at or above the ceiling, before any
subprocess starts; otherwise builds a fresh handle with the project path
and invokes `Process.Start` (abstracted as the `start` parameter, `none`
modelling a start failure).  The started handle is deliberately never
stored in the registry (Go comment: Don't store - Claude CLI completes
immediately), so the manager state is returned unchanged on every path. -/
def Manager.CreateSession (start : Process → Option Process) (m : Manager)
    (projectPath : String) : CreateSessionOut :=
  if m.processes.length ≥ m.maxConcurrentSessions then
    { result := .capacityError m.maxConcurrentSessions
      manager := m
      startAttempted := false }
  else
    let proc : Process := { ProjectPath := projectPath }
    match start proc with
    | none => { result := .startError, manager := m, startAttempted := true }
    | some p => { result := .ok p, manager := m, startAttempted := true }

/-- Go `Manager.GetVersion`: the memoized version probe.  The external
probe (`exec.Command(path, "--version").Output()`) is the `probe`
parameter: `none` is a failed invocation, `some out` a successful one
whose trimmed output becomes the cached version.  The local `err` starts
nil and is only assigned inside the `sync.Once` body, so a later call
never sees the first call's error.  Returns the call's result
(`Except Unit String`), the manager afterwards, and whether the probe
subprocess was invoked. -/
def Manager.GetVersion (m : Manager) (probe : Option String) :
    (Except Unit String) × Manager × Bool :=
  let r : Manager × Option Unit × Bool :=
    if m.versionDone then (m, none, false)
    else
      match probe with
      | some out => ({ m with versionDone := true, version := out.trim }, none, true)
      | none => ({ m with versionDone := true }, some (), true)
  if r.1.version = "" ∧ r.2.1.isSome then (.error (), r.1, r.2.2)
  else (.ok r.1.version, r.1, r.2.2)

/-- A sequence of `GetVersion` calls on one manager, each with the probe
outcome the external binary would have produced had the probe run at that
call.  Returns the per-call results, the final manager, and the total
number of probe invocations. -/
def Manager.GetVersionRuns (m : Manager) :
    List (Option String) → List (Except Unit String) × Manager × Nat
  | [] => ([], m, 0)
  | p :: ps =>
    let r := m.GetVersion p
    let rest := r.2.1.GetVersionRuns ps
    (r.1 :: rest.1, rest.2.1, (if r.2.2 then 1 else 0) + rest.2.2)

/-- The fragment an event contributes under the assemblers' shared
per-event filter: for an assistant event with a non-nil message, the
single-event extraction of its content when non-empty; nothing
otherwise. -/
def singleEventFragment (e : ClaudeMessage) : Option String :=
  if e.Ty = "assistant" then
    match e.Message with
    | some mc =>
      let t := ExtractTextContent mc.Content
      if t ≠ "" then some t else none
    | none => none
  else none

theorem collectHere_eq (e : ClaudeMessage) :
    collectHere e = (singleEventFragment e).toList := by
  unfold collectHere singleEventFragment
  by_cases h : e.Ty = "assistant"
  · simp only [h, if_pos]
    cases e.Message with
    | none => rfl
    | some mc =>
      by_cases ht : ExtractTextContent mc.Content ≠ "" <;> simp [ht]
  · simp [h]

theorem streamHere_eq (c : Converter) (e : ClaudeMessage) :
    streamHere c e =
      ((singleEventFragment e).map fun t => Frame.chunk (CreateContentChunk c t)).toList := by
  unfold streamHere singleEventFragment
  by_cases h : e.Ty = "assistant"
  · simp only [h, if_pos]
    cases e.Message with
    | none => rfl
    | some mc =>
      by_cases ht : ExtractTextContent mc.Content ≠ "" <;> simp [ht]
  · simp [h]

theorem collectParts_eq (events : List ClaudeMessage) :
    collectParts events =
      (events.takeWhile fun e => e.Ty ≠ "result").filterMap singleEventFragment := by
  induction events with
  | nil => rfl
  | cons e rest ih =>
    by_cases h : e.Ty = "result"
    · have hna : e.Ty ≠ "assistant" := by rw [h]; decide
      simp [collectParts, h, List.takeWhile, collectHere_eq, singleEventFragment, hna]
    · simp [collectParts, h, List.takeWhile, collectHere_eq, ih,
        List.filterMap_cons, Option.toList]
      cases singleEventFragment e <;> simp

theorem streamLoop_eq (c : Converter) (es tail : List ClaudeMessage) (r : ClaudeMessage)
    (h1 : ∀ e ∈ es, e.Ty ≠ "result") (hr : r.Ty = "result") :
    streamLoop c (es ++ r :: tail) =
      ((es.filterMap fun e =>
          (singleEventFragment e).map fun t => Frame.chunk (CreateContentChunk c t)),
       tail) := by
  induction es with
  | nil =>
    have hna : r.Ty ≠ "assistant" := by rw [hr]; decide
    simp [streamLoop, hr, streamHere, hna]
  | cons e es ih =>
    have he : e.Ty ≠ "result" := h1 e (List.mem_cons_self e es)
    have ih' := ih fun x hx => h1 x (List.mem_cons_of_mem e hx)
    simp [streamLoop, he, ih', streamHere_eq, List.filterMap_cons]
    cases singleEventFragment e <;> simp

/-- A block sequence whose single block lacks a `text` field but has a
`content` field: the shape on which the two extraction rules differ. -/
def toolResultContent : JVal :=
  .jarr [.jobj [("type", .jstr "tool_result"), ("content", .jstr "hi")]]

/-- Claim C4: single-event extraction returns a plain string itself,
otherwise the text of the first matching `"text"`-typed block (a block
matches when it carries a string `text` field), otherwise empty;
whole-message extraction instead collects per block the `text` field if
present else the `content` field if present, joined with newline
separators; and on a block sequence whose block lacks a `text` field but
has a `content` field the two rules return different results. -/
theorem extraction_rules_distinct :
    (∀ v, ExtractTextContent v = specSingleEventRule v) ∧
    (∀ v, GetTextContent v = specWholeMessageRule v) ∧
    ExtractTextContent toolResultContent = "" ∧
    GetTextContent toolResultContent = "hi" ∧
    ExtractTextContent toolResultContent ≠ GetTextContent toolResultContent := by
  refine ⟨fun v => ?_, fun v => ?_, rfl, rfl, by decide⟩
  · cases v with
    | jarr items => exact extractFromBlocks_eq_findSome items
    | jnull => rfl
    | jbool b => rfl
    | jnum n => rfl
    | jstr s => rfl
    | jobj l => rfl
  · cases v with
    | jarr items =>
      show String.intercalate "\n" (collectBlockParts items) = _
      rw [collectBlockParts_eq_filterMap]
      rfl
    | jnull => rfl
    | jbool b => rfl
    | jnum n => rfl
    | jstr s => rfl
    | jobj l => rfl

/-- Counterexample to claim C1 as stated: an assistant event whose content
is the block sequence `toolResultContent` contributes its whole-message
extraction `"hi"` according to the claim, but the code applies the
single-event extraction (empty here), so the buffered text falls back to
the fixed default rather than `"hi"`. -/
theorem buffered_whole_message_counterexample :
    GetTextContent toolResultContent = "hi" ∧
    (handleNonStreamingResponse
        [{ Ty := "assistant", Message := some { Role := "assistant", Content := toolResultContent } },
         { Ty := "result" }] "m" "sess" "proj" "cid" 0).choices =
      [{ index := 0
         message := { Role := "assistant", Content := .jstr fallbackText }
         finishReason := "stop" }] ∧
    fallbackText ≠ "hi" := by
  refine ⟨rfl, rfl, by decide⟩

/-- Claim C1 (amended): buffered mode drains the queue until a result
event or closure, applies the SINGLE-EVENT extraction rule to every
assistant-message event with a non-nil message, accumulates the non-empty
fragments in arrival order joined with newline separators, and
substitutes the fixed fallback string when the joined text is empty. -/
theorem buffered_mode_assembly (events : List ClaudeMessage)
    (model sessionID projectID completionID : String) (now : Int) :
    (handleNonStreamingResponse events model sessionID projectID completionID now).choices =
      [{ index := 0
         message :=
           { Role := "assistant"
             Content := .jstr
               (let joined := String.intercalate "\n"
                  ((events.takeWhile fun e => e.Ty ≠ "result").filterMap singleEventFragment)
                if joined = "" then fallbackText else joined) }
         finishReason := "stop" }] := by
  simp only [handleNonStreamingResponse, collectParts_eq]

/-- Claim C3: in every buffered-mode response the prompt-token count is
the fixed constant 10, the completion-token count is the whitespace-token
count of the final text (the newline-joined accumulated fragments, with
the fallback substituted before counting when they join to the empty
string), and the total is their sum. -/
theorem buffered_usage_counters (events : List ClaudeMessage)
    (model sessionID projectID completionID : String) (now : Int) :
    (handleNonStreamingResponse events model sessionID projectID completionID now).usage.promptTokens = 10 ∧
    (handleNonStreamingResponse events model sessionID projectID completionID now).usage.completionTokens =
      (stringsFields
        (let joined := String.intercalate "\n" (collectParts events)
         if joined = "" then fallbackText else joined)).length ∧
    (handleNonStreamingResponse events model sessionID projectID completionID now).usage.totalTokens =
      (handleNonStreamingResponse events model sessionID projectID completionID now).usage.promptTokens +
      (handleNonStreamingResponse events model sessionID projectID completionID now).usage.completionTokens := by
  refine ⟨rfl, rfl, rfl⟩

/-- Claim C2: for a well-formed event sequence ending in one result event,
incremental mode emits exactly one initial chunk first, then one content
chunk per assistant-message event with non-empty single-event extraction
in arrival order, then one final chunk, then the done sentinel and nothing
after; everything past the result event is left unread. -/
theorem streaming_emission (c : Converter) (es tail : List ClaudeMessage)
    (r : ClaudeMessage) (h1 : ∀ e ∈ es, e.Ty ≠ "result") (hr : r.Ty = "result") :
    handleStreamingResponse c (es ++ r :: tail) =
      (Frame.chunk (CreateInitialChunk c) ::
        ((es.filterMap fun e =>
            (singleEventFragment e).map fun t => Frame.chunk (CreateContentChunk c t)) ++
         [Frame.chunk (CreateFinalChunk c), Frame.done]),
       tail) := by
  unfold handleStreamingResponse
  rw [streamLoop_eq c es tail r h1 hr]

/-- The converter used by the concrete streaming scenarios. -/
def scenarioConv : Converter := NewConverter "claude-3-5-haiku-20241022" "sess-1" "u" 0

/-- The two assistant events of the spec's streaming scenario. -/
def scenarioEvents : List ClaudeMessage :=
  [{ Ty := "assistant", Message := some { Role := "assistant", Content := .jstr "Hello" } },
   { Ty := "assistant", Message := some { Role := "assistant", Content := .jstr "World" } }]

/-- Witness for claim C2 at the spec's scenario
assistant("Hello"), assistant("World"), result: the emitted frames are
initial, content("Hello"), content("World"), final, done, and nothing is
read past the result event. -/
theorem streaming_emission_witness :
    (∀ e ∈ scenarioEvents, e.Ty ≠ "result") ∧
    handleStreamingResponse scenarioConv (scenarioEvents ++ { Ty := "result" } :: []) =
      ([Frame.chunk (CreateInitialChunk scenarioConv),
        Frame.chunk (CreateContentChunk scenarioConv "Hello"),
        Frame.chunk (CreateContentChunk scenarioConv "World"),
        Frame.chunk (CreateFinalChunk scenarioConv), Frame.done],
       []) :=
  ⟨by decide,
   (streaming_emission scenarioConv scenarioEvents [] { Ty := "result" }
      (by decide) rfl).trans rfl⟩

/-- Claim C5: the stdout parser forwards to the queue exactly the
successfully decoded non-blank lines, strictly in arrival order; blank
lines are skipped, undecodable lines are discarded without terminating
the stream and never appear as forwarded events, and the queue is closed
exactly once, after end-of-file. -/
theorem parser_queue_trace (decode : String → Option ClaudeMessage)
    (sid : String) (lines : List String) :
    (parseStdoutLoop decode sid lines).2 =
      ((lines.filter fun l => l ≠ "").filterMap decode).map QOp.send ++ [QOp.close] := by
  induction lines generalizing sid with
  | nil => rfl
  | cons l ls ih =>
    by_cases hl : l = ""
    · simp [parseStdoutLoop, hl, List.filter_cons, ih]
    · cases hd : decode l with
      | none => simp [parseStdoutLoop, hl, List.filter_cons, hd, ih]
      | some m => simp [parseStdoutLoop, hl, List.filter_cons, hd, ih]

theorem parser_session_id (decode : String → Option ClaudeMessage)
    (lines : List String) (sid : String) :
    (parseStdoutLoop decode sid lines).1 =
      if sid = "" then
        ((((lines.filter fun l => l ≠ "").filterMap decode).findSome? fun m =>
            if m.SessionID ≠ "" then some m.SessionID else none).getD "")
      else sid := by
  induction lines generalizing sid with
  | nil => by_cases h : sid = "" <;> simp [parseStdoutLoop, h]
  | cons l ls ih =>
    by_cases hl : l = ""
    · simp [parseStdoutLoop, hl, List.filter_cons, ih]
    · cases hd : decode l with
      | none => simp [parseStdoutLoop, hl, List.filter_cons, hd, ih]
      | some m =>
        by_cases hs : sid = ""
        · by_cases hm : m.SessionID = ""
          · simp [parseStdoutLoop, hl, List.filter_cons, hd, ih, adoptSessionID, hs, hm]
          · simp [parseStdoutLoop, hl, List.filter_cons, hd, ih, adoptSessionID, hs, hm]
        · simp [parseStdoutLoop, hl, List.filter_cons, hd, ih, adoptSessionID, hs]

/-- Claim C6: starting unset, the parser adopts the session id of the
first decoded event carrying a non-empty session identifier (empty when
none does); and once the session id is set it never changes for the rest
of the stream. -/
theorem session_id_adoption (decode : String → Option ClaudeMessage)
    (lines : List String) :
    ((parseStdoutLoop decode "" lines).1 =
      ((((lines.filter fun l => l ≠ "").filterMap decode).findSome? fun m =>
          if m.SessionID ≠ "" then some m.SessionID else none).getD "")) ∧
    (∀ sid, sid ≠ "" → (parseStdoutLoop decode sid lines).1 = sid) := by
  constructor
  · simpa using parser_session_id decode lines ""
  · intro sid hs
    simpa [hs] using parser_session_id decode lines sid

/-- A concrete decoder for the C6 witness: only the line `"evt"` decodes,
to a system event carrying session id `sess-42`. -/
def c6Decode : String → Option ClaudeMessage := fun l =>
  if l = "evt" then some { Ty := "system", SessionID := "sess-42" } else none

/-- Witness for claim C6: on the line sequence blank, junk, `"evt"`, a
handle whose session id is already `keep` keeps it, and a handle starting
unset adopts `sess-42`. -/
theorem session_id_adoption_witness :
    ("keep" : String) ≠ "" ∧
    (parseStdoutLoop c6Decode "keep" ["", "junk", "evt"]).1 = "keep" ∧
    (parseStdoutLoop c6Decode "" ["", "junk", "evt"]).1 = "sess-42" :=
  ⟨by decide,
   (session_id_adoption c6Decode ["", "junk", "evt"]).2 "keep" (by decide),
   ((session_id_adoption c6Decode ["", "junk", "evt"]).1).trans rfl⟩

/-- The chunks a converter instance can produce over any sequence of
chunk-producing calls: its initial chunk, a content chunk at any content,
or its final chunk. -/
inductive Produces (c : Converter) : ChatCompletionChunk → Prop where
  | initial : Produces c (CreateInitialChunk c)
  | content (s : String) : Produces c (CreateContentChunk c s)
  | final : Produces c (CreateFinalChunk c)

/-- Counterexample to claim C7 as stated: the chunk wire shape carries no
session-id field at all — serializing any produced chunk of a converter
constructed with a non-empty session id yields a JSON object with no
`session_id` key — so no produced chunk has a session id equal to the
value fixed at construction. -/
theorem chunk_session_id_counterexample :
    scenarioConv.SessionID = "sess-1" ∧
    jlookup "session_id" (chunkToJson (CreateInitialChunk scenarioConv)) = none ∧
    jlookup "session_id" (chunkToJson (CreateContentChunk scenarioConv "Hello")) = none ∧
    jlookup "session_id" (chunkToJson (CreateFinalChunk scenarioConv)) = none :=
  ⟨rfl, rfl, rfl, rfl⟩

/-- Claim C7 (amended): the identity fields a chunk carries (completion
id, model, creation timestamp) are, in every chunk a converter produces,
equal to the values fixed at the converter's construction, so no two
chunks of one response differ in any of them; the session id is likewise
fixed in the converter at construction but is not carried on chunks. -/
theorem chunk_identity_fixed (c : Converter) (ch₁ ch₂ : ChatCompletionChunk)
    (h₁ : Produces c ch₁) (h₂ : Produces c ch₂) :
    (ch₁.id = c.CompletionID ∧ ch₁.model = c.Model ∧ ch₁.created = c.Created) ∧
    (ch₁.id = ch₂.id ∧ ch₁.model = ch₂.model ∧ ch₁.created = ch₂.created) := by
  cases h₁ <;> cases h₂ <;>
    simp [CreateInitialChunk, CreateContentChunk, CreateFinalChunk]

/-- Witness for claim C7: the initial and final chunks of the concrete
converter agree with its construction-time identity and with each
other. -/
theorem chunk_identity_fixed_witness :
    ((CreateInitialChunk scenarioConv).id = scenarioConv.CompletionID ∧
     (CreateInitialChunk scenarioConv).model = scenarioConv.Model ∧
     (CreateInitialChunk scenarioConv).created = scenarioConv.Created) ∧
    ((CreateInitialChunk scenarioConv).id = (CreateFinalChunk scenarioConv).id ∧
     (CreateInitialChunk scenarioConv).model = (CreateFinalChunk scenarioConv).model ∧
     (CreateInitialChunk scenarioConv).created = (CreateFinalChunk scenarioConv).created) :=
  chunk_identity_fixed scenarioConv _ _ Produces.initial Produces.final

/-- Claim C8 (amended): whenever a launch is attempted while the
registry's current size is at or above the configured ceiling, it fails
immediately with a capacity error, before any subprocess start is
attempted, leaving the manager unchanged. -/
theorem capacity_gate_rejects (start : Process → Option Process) (m : Manager)
    (projectPath : String)
    (h : m.ActiveSessionCount ≥ m.maxConcurrentSessions) :
    Manager.CreateSession start m projectPath =
      { result := .capacityError m.maxConcurrentSessions
        manager := m
        startAttempted := false } := by
  have h' : m.processes.length ≥ m.maxConcurrentSessions := h
  unfold Manager.CreateSession
  rw [if_pos h']

/-- A manager whose registry already holds one handle, against a ceiling
of one. -/
def fullManager : Manager :=
  { maxConcurrentSessions := 1, processes := [("sess", {})] }

/-- A `Process.Start` outcome that always succeeds, marking the handle
running as the Go code does. -/
def startOk : Process → Option Process := fun p => some { p with IsRunning := true }

/-- Witness for claim C8: with the registry at the ceiling, a launch is
rejected with the capacity error and no subprocess start is attempted. -/
theorem capacity_gate_rejects_witness :
    fullManager.ActiveSessionCount ≥ fullManager.maxConcurrentSessions ∧
    Manager.CreateSession startOk fullManager "proj" =
      { result := .capacityError fullManager.maxConcurrentSessions
        manager := fullManager
        startAttempted := false } :=
  ⟨by decide, capacity_gate_rejects startOk fullManager "proj" (by decide)⟩

/-- Counterexample to claim C8 as stated: with ceiling N = 1 and N + 1 = 2
launches attempted, the second launch does NOT fail with a capacity error
— it succeeds and a subprocess start is attempted — because a successful
launch never inserts its handle into the registry, so the size the gate
compares never leaves its baseline of zero. -/
theorem capacity_scenario_counterexample :
    (NewManager 1).maxConcurrentSessions = 1 ∧
    (Manager.CreateSession startOk (NewManager 1) "p").result =
      .ok { ProjectPath := "p", IsRunning := true } ∧
    (Manager.CreateSession startOk
        (Manager.CreateSession startOk (NewManager 1) "p").manager "p").result =
      .ok { ProjectPath := "p", IsRunning := true } ∧
    (Manager.CreateSession startOk
        (Manager.CreateSession startOk (NewManager 1) "p").manager "p").startAttempted = true :=
  ⟨rfl, rfl, rfl, rfl⟩

/-- Claim C9: a successful launch never inserts the launched handle into
the registry and never removes anything from it — the registry contents
and `ActiveSessionCount` are unchanged from before the call. -/
theorem launch_registry_frame (start : Process → Option Process) (m : Manager)
    (projectPath : String) (p : Process)
    (h : (Manager.CreateSession start m projectPath).result = .ok p) :
    (Manager.CreateSession start m projectPath).manager = m ∧
    (Manager.CreateSession start m projectPath).manager.ActiveSessionCount =
      m.ActiveSessionCount := by
  have hm : (Manager.CreateSession start m projectPath).manager = m := by
    unfold Manager.CreateSession
    by_cases hc : m.processes.length ≥ m.maxConcurrentSessions
    · simp [hc]
    · simp only [hc, if_false]
      cases hs : start { SessionID := "", ProjectPath := projectPath, IsRunning := false } <;>
        simp [hs]
  exact ⟨hm, by rw [hm]⟩

/-- Witness for claim C9: a concrete successful launch against a fresh
manager leaves it unchanged. -/
theorem launch_registry_frame_witness :
    (Manager.CreateSession startOk (NewManager 1) "p").result =
      .ok { ProjectPath := "p", IsRunning := true } ∧
    (Manager.CreateSession startOk (NewManager 1) "p").manager = NewManager 1 :=
  ⟨rfl,
   (launch_registry_frame startOk (NewManager 1) "p"
      { ProjectPath := "p", IsRunning := true } rfl).1⟩

theorem getVersion_after_done (m : Manager) (p : Option String)
    (h : m.versionDone = true) :
    m.GetVersion p = (.ok m.version, m, false) := by
  simp [Manager.GetVersion, h]

theorem getVersionRuns_after_done (m : Manager) (h : m.versionDone = true)
    (ps : List (Option String)) :
    m.GetVersionRuns ps = (ps.map fun _ => Except.ok m.version, m, 0) := by
  induction ps with
  | nil => rfl
  | cons p ps ih =>
    simp [Manager.GetVersionRuns, getVersion_after_done m p h, ih]

theorem getVersion_fresh_none (maxConcurrentSessions : Nat) :
    (NewManager maxConcurrentSessions).GetVersion none =
      (.error (),
       { maxConcurrentSessions := maxConcurrentSessions, processes := [],
         versionDone := true, version := "" },
       true) := rfl

theorem getVersion_fresh_some (maxConcurrentSessions : Nat) (out : String) :
    (NewManager maxConcurrentSessions).GetVersion (some out) =
      (.ok out.trim,
       { maxConcurrentSessions := maxConcurrentSessions, processes := [],
         versionDone := true, version := out.trim },
       true) := by
  simp [Manager.GetVersion, NewManager]

/-- Claim C10: over any sequence of `GetVersion` calls on a freshly
constructed manager, the version probe subprocess is invoked at most
once; and when the first probe invocation fails, the first call reports
the error while every subsequent call returns the empty version string
with no error, the probe never being retried. -/
theorem version_probe_once (maxConcurrentSessions : Nat)
    (ps : List (Option String)) :
    ((NewManager maxConcurrentSessions).GetVersionRuns ps).2.2 ≤ 1 ∧
    (NewManager maxConcurrentSessions).GetVersionRuns (none :: ps) =
      (Except.error () :: ps.map (fun _ => Except.ok ""),
       { maxConcurrentSessions := maxConcurrentSessions, processes := [],
         versionDone := true, version := "" },
       1) := by
  constructor
  · cases ps with
    | nil => simp [Manager.GetVersionRuns]
    | cons p ps =>
      cases p with
      | none =>
        simp [Manager.GetVersionRuns, getVersion_fresh_none,
          getVersionRuns_after_done
            { maxConcurrentSessions := maxConcurrentSessions, processes := [],
              versionDone := true, version := "" } rfl ps]
      | some out =>
        simp [Manager.GetVersionRuns, getVersion_fresh_some,
          getVersionRuns_after_done
            { maxConcurrentSessions := maxConcurrentSessions, processes := [],
              versionDone := true, version := out.trim } rfl ps]
  · simp [Manager.GetVersionRuns, getVersion_fresh_none,
      getVersionRuns_after_done
        { maxConcurrentSessions := maxConcurrentSessions, processes := [],
          versionDone := true, version := "" } rfl ps]
